import Mathlib

/-!
Verification of the two-way file synchronization engine.

The definitions below are a shallow embedding of the engine's core:
the state model (`FileState`, `StorageState`, `SyncPairState`), the
diff engine (`StorageStateDiff.compute` with move detection), the
action planner (`action_matrix`), the filter compiler (`make_filter`),
and the orchestrator's finalization logic (`syncFinalize`).
Python dictionaries are embedded as insertion-ordered association
lists; code that can raise an exception is embedded in `Except`.
-/

set_option maxHeartbeats 1000000

namespace Sync

/-! ## Hash types (sync/hashing.py) -/

inductive HashType
  | DROPBOX_SHA256
  | SHA256
  deriving DecidableEq, Repr, BEq

/-! ## State model (sync/state.py) -/

/-- `FileState` record: path, content hash, hash type, optional revision. -/
structure FileState where
  path : String
  content_hash : String
  hash_type : HashType
  revision : Option String
  deriving DecidableEq, Repr

/-- Embedding of `FileState.__eq__`: compares path, content_hash,
hash_type and revision. -/
def FileState.eqPy (a b : FileState) : Bool :=
  a.path == b.path
    && a.content_hash == b.content_hash
    && a.hash_type == b.hash_type
    && a.revision == b.revision

/-- `StorageState`: mapping from path to `FileState`, embedded as an
insertion-ordered association list (a Python dict). -/
structure StorageState where
  files : List (String × FileState)
  deriving DecidableEq, Repr

/-- `SyncPairState`: the persisted pair of storage snapshots. -/
structure SyncPairState where
  source_state : StorageState
  dest_state : StorageState
  deriving DecidableEq, Repr

/-! ## Sync actions (sync/core.py) -/

inductive SyncAction
  | Download (path : String)
  | Upload (path : String)
  | RemoveOnSource (path : String)
  | RemoveOnDestination (path : String)
  | ResolveConflict (path : String)
  | MoveOnSource (path new_path : String)
  | MoveOnDestination (path new_path : String)
  | Noop (path : String)
  | RaiseError (path message : String)
  deriving DecidableEq, Repr

def SyncAction.path : SyncAction → String
  | .Download p => p
  | .Upload p => p
  | .RemoveOnSource p => p
  | .RemoveOnDestination p => p
  | .ResolveConflict p => p
  | .MoveOnSource p _ => p
  | .MoveOnDestination p _ => p
  | .Noop p => p
  | .RaiseError p _ => p

/-- Embedding of the Python `==` on sync actions.  The two move action
classes override `__eq__` to require the same class and equal
`(path, new_path)`; every other class inherits the base
`SyncAction.__eq__`, which only checks `isinstance(other, SyncAction)`
and compares `path`. -/
def syncActionEqPy (a b : SyncAction) : Bool :=
  match a with
  | .MoveOnSource p np =>
      match b with
      | .MoveOnSource q nq => p == q && np == nq
      | .Download _ => false
      | .Upload _ => false
      | .RemoveOnSource _ => false
      | .RemoveOnDestination _ => false
      | .ResolveConflict _ => false
      | .MoveOnDestination _ _ => false
      | .Noop _ => false
      | .RaiseError _ _ => false
  | .MoveOnDestination p np =>
      match b with
      | .MoveOnDestination q nq => p == q && np == nq
      | .Download _ => false
      | .Upload _ => false
      | .RemoveOnSource _ => false
      | .RemoveOnDestination _ => false
      | .ResolveConflict _ => false
      | .MoveOnSource _ _ => false
      | .Noop _ => false
      | .RaiseError _ _ => false
  | .Download p => p == b.path
  | .Upload p => p == b.path
  | .RemoveOnSource p => p == b.path
  | .RemoveOnDestination p => p == b.path
  | .ResolveConflict p => p == b.path
  | .Noop p => p == b.path
  | .RaiseError p _ => p == b.path

/-- Constructor of `MoveOnSourceSyncAction`: raises `ValueError` when
the old and new path coincide. -/
def mkMoveOnSource (path new_path : String) : Except String SyncAction :=
  if path == new_path then Except.error "old and new paths must be different"
  else Except.ok (SyncAction.MoveOnSource path new_path)

/-- Constructor of `MoveOnDestinationSyncAction`: raises `ValueError`
when the old and new path coincide. -/
def mkMoveOnDestination (path new_path : String) : Except String SyncAction :=
  if path == new_path then Except.error "old and new paths must be different"
  else Except.ok (SyncAction.MoveOnDestination path new_path)

/-! ## Diff types (sync/diff.py) -/

inductive DiffType
  | Added (path : String)
  | Removed (path : String)
  | Changed (path : String)
  | Moved (path new_path : String)
  deriving DecidableEq, Repr

def DiffType.path : DiffType → String
  | .Added p => p
  | .Removed p => p
  | .Changed p => p
  | .Moved p _ => p

/-! ## Action planner (Syncer.sync action matrix, sync/core.py) -/

/-- Embedding of `Syncer.__resolve_mutual_movement`: asserts the two
diffs concern the same path; `Noop` when both sides moved to the same
new path, `RaiseError` otherwise. -/
def resolveMutualMovement (src_path src_new dst_path dst_new : String) :
    Except String SyncAction :=
  if (src_path == dst_path) = false then
    Except.error "AssertionError: src.path == dst.path"
  else if src_new == dst_new then
    Except.ok (SyncAction.Noop src_path)
  else
    Except.ok (SyncAction.RaiseError src_path
      ("File moved on both source and destination in different locations; new location on source: "
        ++ src_new ++ ", on destination: " ++ dst_new ++ ";"))

/-- Embedding of the `action_matrix` dictionary in `Syncer.sync`,
keyed by the dynamic types of the per-side diffs (`none` = no diff on
that side).  `none` as the result means the key pair is absent from
the dictionary. -/
def action_matrix (src dst : Option DiffType) : Option (Except String SyncAction) :=
  match src, dst with
  | none, some (DiffType.Added p) =>
      some (Except.ok (SyncAction.Download p))
  | none, some (DiffType.Removed p) =>
      some (Except.ok (SyncAction.RemoveOnSource p))
  | none, some (DiffType.Changed p) =>
      some (Except.ok (SyncAction.Download p))
  | some (DiffType.Added p), none =>
      some (Except.ok (SyncAction.Upload p))
  | some (DiffType.Removed p), none =>
      some (Except.ok (SyncAction.RemoveOnDestination p))
  | some (DiffType.Changed p), none =>
      some (Except.ok (SyncAction.Upload p))
  | some (DiffType.Added p), some (DiffType.Added _) =>
      some (Except.ok (SyncAction.ResolveConflict p))
  | some (DiffType.Changed p), some (DiffType.Changed _) =>
      some (Except.ok (SyncAction.ResolveConflict p))
  | some (DiffType.Removed p), some (DiffType.Removed _) =>
      some (Except.ok (SyncAction.Noop p))
  | some (DiffType.Changed p), some (DiffType.Removed _) =>
      some (Except.ok (SyncAction.RaiseError p
        "File changed on source, but removed on destination"))
  | some (DiffType.Removed p), some (DiffType.Changed _) =>
      some (Except.ok (SyncAction.RaiseError p
        "File removed on source, but changed on destination"))
  | none, some (DiffType.Moved p np) =>
      some (mkMoveOnSource p np)
  | some (DiffType.Moved p np), none =>
      some (mkMoveOnDestination p np)
  | some (DiffType.Moved p np), some (DiffType.Moved q nq) =>
      some (resolveMutualMovement p np q nq)
  | _, _ => none

/-- The planning loop over changed paths: an absent key pair in
`action_matrix` records the path in `paths_with_errors` instead of
producing an action. -/
def planPaths (changed : List String)
    (src_changes dst_changes : List (String × DiffType)) :
    List (String × Except String SyncAction) × List String :=
  changed.foldl
    (fun acc path =>
      match action_matrix (src_changes.lookup path) (dst_changes.lookup path) with
      | none => (acc.1, acc.2 ++ [path])
      | some act => (acc.1 ++ [(path, act)], acc.2))
    ([], [])

/-! ## Filter (make_filter, sync/core.py)

An atom of a filter expression is compiled by `fnmatch.translate` into
a regular expression which is matched with `re.IGNORECASE` against the
start of the path (`regex.match`); `fnmatch.translate` appends an
end-of-string anchor, so an atom matches the whole path.  Glob
patterns are embedded as token lists (`*`, `?`, character classes and
literals) matched against the full path, and `re.IGNORECASE` is
embedded by lowercasing both the pattern and the path. -/

def isPySpace (c : Char) : Bool :=
  c == ' ' || c == '\t' || c == '\n' || c == '\r' || c == '\x0b' || c == '\x0c'

/-- Python `str.strip()`. -/
def pyStrip (s : String) : String :=
  String.mk (((s.toList.dropWhile isPySpace).reverse.dropWhile isPySpace).reverse)

inductive GlobTok
  | star
  | anyChar
  | lit (c : Char)
  | cls (neg : Bool) (items : List (Char × Char))
  deriving DecidableEq, Repr

/-- Scan to the next unconsumed `]`; `none` when there is none. -/
def splitUntilRBracket : List Char → Option (List Char × List Char)
  | [] => none
  | c :: t =>
      if c = ']' then some ([], t)
      else
        match splitUntilRBracket t with
        | none => none
        | some ab => some (c :: ab.1, ab.2)

theorem splitUntilRBracket_length :
    ∀ (cs a b : List Char), splitUntilRBracket cs = some (a, b) →
      b.length < cs.length := by
  intro cs
  induction cs with
  | nil => intro a b h; simp [splitUntilRBracket] at h
  | cons c t ih =>
      intro a b h
      simp only [splitUntilRBracket] at h
      by_cases hc : c = ']'
      · rw [if_pos hc] at h
        cases h
        simp
      · rw [if_neg hc] at h
        cases hsp : splitUntilRBracket t with
        | none => rw [hsp] at h; cases h
        | some ab =>
            rw [hsp] at h
            cases h
            have := ih ab.1 ab.2 (by rw [hsp])
            simp only [List.length_cons]
            omega

/-- The character-class scan of `fnmatch.translate`: after `[`, an
initial `!` and an immediately following `]` are consumed as content
before looking for the closing `]`. -/
def scanCls (cs : List Char) : Option (List Char × List Char) :=
  match cs with
  | [] => none
  | c1 :: t1 =>
      if c1 = '!' then
        if t1.head? = some ']' then
          (splitUntilRBracket t1.tail).map (fun ab => ('!' :: ']' :: ab.1, ab.2))
        else
          (splitUntilRBracket t1).map (fun ab => ('!' :: ab.1, ab.2))
      else if c1 = ']' then
        (splitUntilRBracket t1).map (fun ab => (']' :: ab.1, ab.2))
      else
        (splitUntilRBracket (c1 :: t1)).map (fun ab => ab)

theorem scanCls_length (cs s r : List Char) (h : scanCls cs = some (s, r)) :
    r.length < cs.length := by
  match cs with
  | [] => simp [scanCls] at h
  | c1 :: t1 =>
      simp only [scanCls] at h
      split at h
      · split at h
        · rw [Option.map_eq_some'] at h
          obtain ⟨ab, hab, heq⟩ := h
          cases heq
          have := splitUntilRBracket_length t1.tail ab.1 ab.2 hab
          have ht : t1.tail.length = t1.length - 1 := List.length_tail t1
          simp only [List.length_cons]
          omega
        · rw [Option.map_eq_some'] at h
          obtain ⟨ab, hab, heq⟩ := h
          cases heq
          have := splitUntilRBracket_length t1 ab.1 ab.2 hab
          simp only [List.length_cons]
          omega
      · split at h
        · rw [Option.map_eq_some'] at h
          obtain ⟨ab, hab, heq⟩ := h
          cases heq
          have := splitUntilRBracket_length t1 ab.1 ab.2 hab
          simp only [List.length_cons]
          omega
        · rw [Option.map_eq_some'] at h
          obtain ⟨ab, hab, heq⟩ := h
          cases heq
          exact splitUntilRBracket_length (c1 :: t1) s r hab

/-- Character-class content: `a-b` ranges, ordinary members as
degenerate ranges. -/
def parseClsItems : List Char → List (Char × Char)
  | [] => []
  | a :: '-' :: b :: rest => (a, b) :: parseClsItems rest
  | a :: rest => (a, a) :: parseClsItems rest

/-- Negation marker of a character class: a leading `!`. -/
def clsOfStuff (stuff : List Char) : GlobTok :=
  match stuff with
  | '!' :: s2 => GlobTok.cls true (parseClsItems s2)
  | s2 => GlobTok.cls false (parseClsItems s2)

/-- Embedding of `fnmatch.translate`: glob pattern to match tokens.
An unmatched `[` stands for itself. -/
def parseGlob (cs : List Char) : List GlobTok :=
  match cs with
  | [] => []
  | c :: t =>
      if c = '*' then GlobTok.star :: parseGlob t
      else if c = '?' then GlobTok.anyChar :: parseGlob t
      else if c = '[' then
        match hsc : scanCls t with
        | none => GlobTok.lit '[' :: parseGlob t
        | some sr => clsOfStuff sr.1 :: parseGlob sr.2
      else GlobTok.lit c :: parseGlob t
termination_by cs.length
decreasing_by
  · simp
  · simp
  · simp
  · have := scanCls_length t sr.1 sr.2 (by rw [hsc])
    simp only [List.length_cons]
    omega
  · simp

def matchCls (neg : Bool) (items : List (Char × Char)) (c : Char) : Bool :=
  let inCls := items.any (fun ab => ab.1 ≤ c && c ≤ ab.2)
  if neg then !inCls else inCls

/-- Full-pattern glob matching: the token list must consume the whole
path, and matching is anchored at the start of the path. -/
def globMatchToks (ps : List GlobTok) (s : List Char) : Bool :=
  match ps, s with
  | [], [] => true
  | [], _ :: _ => false
  | GlobTok.star :: ps, s =>
      globMatchToks ps s ||
        (match s with
         | [] => false
         | _ :: s2 => globMatchToks (GlobTok.star :: ps) s2)
  | GlobTok.anyChar :: ps, _ :: s => globMatchToks ps s
  | GlobTok.anyChar :: _, [] => false
  | GlobTok.lit c :: ps, d :: s => c == d && globMatchToks ps s
  | GlobTok.lit _ :: _, [] => false
  | GlobTok.cls neg items :: ps, c :: s => matchCls neg items c && globMatchToks ps s
  | GlobTok.cls _ _ :: _, [] => false
termination_by (ps.length, s.length)

def lowerStr (s : String) : List Char := s.toList.map Char.toLower

/-- A single compiled atom applied to a path: case-insensitive glob
match of the whole path, anchored at the start of the path. -/
def match_single (pattern path : String) : Bool :=
  globMatchToks (parseGlob (lowerStr pattern)) (lowerStr path)

/-- Embedding of `make_single_matcher`: strip the atom, record and
drop a leading `!`; the empty atom raises `IndexError` (`none`). -/
def make_single_matcher (atomic_expr : String) : Option (String × Bool) :=
  let se := pyStrip atomic_expr
  match se.toList with
  | [] => none
  | '!' :: rest => some (String.mk rest, true)
  | _ => some (se, false)

/-- `str.replace(";", ",")` for the single-character needle. -/
def replaceSemi (cs : List Char) : List Char :=
  cs.map (fun c => if c = ';' then ',' else c)

/-- Python `str.split(",")`: the empty string yields one empty part. -/
def splitOnComma : List Char → List (List Char)
  | [] => [[]]
  | c :: t =>
      if c = ',' then [] :: splitOnComma t
      else
        match splitOnComma t with
        | [] => [[c]]
        | h :: r => (c :: h) :: r

/-- `filter_expr.replace(";", ",").split(",")`. -/
def splitExpr (filter_expr : String) : List String :=
  (splitOnComma (replaceSemi filter_expr.toList)).map String.mk

def parse_filter (filter_expr : String) : Option (List (String × Bool)) :=
  (splitExpr filter_expr).mapM make_single_matcher

/-- The scanning loop of `result_matcher`: a matching positive atom
sets the verdict and continues, a matching negative atom returns
exclude immediately. -/
def scanMatchers (path : String) : List (String × Bool) → Bool → Bool
  | [], result => result
  | pm :: rest, result =>
      if match_single pm.1 path then
        (if pm.2 = false then scanMatchers path rest true else false)
      else scanMatchers path rest result

/-- Embedding of `result_matcher`: the default verdict is the
negativity of the first matcher (the matcher list coming from
`make_filter` is never empty, so the `[]` default is unreachable). -/
def result_matcher (matchers : List (String × Bool)) (path : String) : Bool :=
  let first_matcher_negative :=
    match matchers with
    | [] => false
    | m :: _ => m.2
  scanMatchers path matchers first_matcher_negative

/-- Embedding of `make_filter`: `none` when some atom is empty
(Python raises `IndexError`). -/
def make_filter (filter_expr : String) : Option (String → Bool) :=
  (parse_filter filter_expr).map (fun ms => fun path => result_matcher ms path)

/-! ## State persistence (sync/state.py, SyncPairState.save / load)

`pickle` is standard-library code, not part of this repository; per the
specification the on-disk format is a self-describing serialization of
the object graph which rejects malformed input with a distinct error. -/

/-- Modelled from the spec: a self-describing serialized value (the
`pickle` object graph; `pickle` itself is not in the repository
sources). -/
inductive PickleValue
  | pstr (s : String)
  | pnone
  | plist (items : List PickleValue)
  deriving Repr

def hashTypeValue : HashType → String
  | .DROPBOX_SHA256 => "DROPBOX_SHA256"
  | .SHA256 => "SHA256"

def parseHashType (s : String) : Except String HashType :=
  if s = "DROPBOX_SHA256" then Except.ok HashType.DROPBOX_SHA256
  else if s = "SHA256" then Except.ok HashType.SHA256
  else Except.error "unknown hash type"

/-- Modelled from the spec: serialization of a `FileState` record (all
four attributes of the object are pickled). -/
def encodeFileState (f : FileState) : PickleValue :=
  PickleValue.plist
    [PickleValue.pstr f.path,
     PickleValue.pstr f.content_hash,
     PickleValue.pstr (hashTypeValue f.hash_type),
     match f.revision with
     | none => PickleValue.pnone
     | some r => PickleValue.pstr r]

def decodeFileState : PickleValue → Except String FileState
  | PickleValue.plist
      [PickleValue.pstr p, PickleValue.pstr ch, PickleValue.pstr ht, rev] => do
      let t ← parseHashType ht
      let r ←
        match rev with
        | PickleValue.pnone => Except.ok (none : Option String)
        | PickleValue.pstr r => Except.ok (some r)
        | _ => Except.error "malformed revision"
      Except.ok (FileState.mk p ch t r)
  | _ => Except.error "malformed FileState"

def encodeEntry (kv : String × FileState) : PickleValue :=
  PickleValue.plist [PickleValue.pstr kv.1, encodeFileState kv.2]

def decodeEntry : PickleValue → Except String (String × FileState)
  | PickleValue.plist [PickleValue.pstr k, v] => do
      let f ← decodeFileState v
      Except.ok (k, f)
  | _ => Except.error "malformed entry"

def encodeStorageState (s : StorageState) : PickleValue :=
  PickleValue.plist (s.files.map encodeEntry)

def decodeStorageState : PickleValue → Except String StorageState
  | PickleValue.plist items => do
      let fs ← items.mapM decodeEntry
      Except.ok (StorageState.mk fs)
  | _ => Except.error "malformed StorageState"

/-- Embedding of `SyncPairState.save` (serialization done by `pickle`,
modelled from the spec). -/
def SyncPairState.save (s : SyncPairState) : PickleValue :=
  PickleValue.plist
    [PickleValue.pstr "SyncPairState",
     encodeStorageState s.source_state,
     encodeStorageState s.dest_state]

/-- Embedding of `SyncPairState.load`: `pickle.load` raises on
malformed input, and the `assert isinstance(obj, SyncPairState)`
rejects pickles of other types. -/
def SyncPairState.load (v : PickleValue) : Except String SyncPairState :=
  match v with
  | PickleValue.plist [PickleValue.pstr tag, s1, s2] =>
      if tag = "SyncPairState" then do
        let a ← decodeStorageState s1
        let b ← decodeStorageState s2
        Except.ok (SyncPairState.mk a b)
      else Except.error "AssertionError: not a SyncPairState"
  | _ => Except.error "pickle.UnpicklingError"

/-- Embedding of `Syncer.load_state` (sync/core.py): when the state
file exists, its contents are loaded and any load error propagates;
when it does not exist, a pair of empty states is returned. -/
def load_state (state_file_exists : Bool) (contents : PickleValue) :
    Except String SyncPairState :=
  if state_file_exists then SyncPairState.load contents
  else Except.ok (SyncPairState.mk (StorageState.mk []) (StorageState.mk []))

/-! ## Orchestrator finalization (Syncer.sync tail, sync/core.py) -/

/-- Embedding of `Syncer.__correctness_check`: raises `SyncError` when
the key sets of the two states differ. -/
def correctness_check (src_state dst_state : StorageState) :
    Except String Unit :=
  let src_files := src_state.files.map Prod.fst
  let dst_files := dst_state.files.map Prod.fst
  let missing_on_dst := dst_files.filter (fun p => !src_files.contains p)
  let missing_on_src := src_files.filter (fun p => !dst_files.contains p)
  if missing_on_src ≠ [] ∨ missing_on_dst ≠ [] then
    Except.error "Unknown correctness error detected!"
  else Except.ok ()

structure SyncOutcome where
  actions : List SyncAction
  saved : Option SyncPairState
  deriving Repr

/-- Embedding of the tail of `Syncer.sync` after action planning.
`exec_errors` stands for the exceptions the submitted actions would
collect in `sync_errors`; in a dry run no action is submitted, so
nothing accumulates, the correctness check is skipped and no state is
saved.  Otherwise accumulated errors abort the run, then the
correctness check runs, then the pair state is persisted. -/
def syncFinalize (dry_run : Bool) (actions : List SyncAction)
    (exec_errors : List String) (src_state dst_state : StorageState) :
    Except String SyncOutcome :=
  let sync_errors := if dry_run then [] else exec_errors
  if sync_errors ≠ [] then
    Except.error "sync errors occurred (see logs)"
  else if dry_run = false then do
    let _ ← correctness_check src_state dst_state
    Except.ok (SyncOutcome.mk actions
      (some (SyncPairState.mk src_state dst_state)))
  else
    Except.ok (SyncOutcome.mk actions none)

/-! ## Diff engine (sync/diff.py) -/

def lastIdxOf (cs : List Char) (c : Char) : Option Nat :=
  match cs with
  | [] => none
  | x :: t =>
      match lastIdxOf t c with
      | some i => some (i + 1)
      | none => if x = c then some 0 else none

/-- Embedding of `path_split` (sync/providers/common.py): split at the
last `/`.  With no separator Python's `rfind` returns `-1`, so the
head slice `path[:-1]` is everything but the last character and the
tail slice `path[0:]` is the whole string; an empty head or tail
raises `ValueError`. -/
def path_split (path : String) : Except String (String × String) :=
  let cs := path.toList
  let ht :=
    match lastIdxOf cs '/' with
    | some idx => (cs.take idx, cs.drop (idx + 1))
    | none => (cs.dropLast, cs)
  if ht.1 = [] ∨ ht.2 = [] then Except.error "Invalid path to split!"
  else Except.ok (String.mk ht.1, String.mk ht.2)

/-- Inner loop of `levenshtein_distance`: one row update.  `dists` is
the previous row aligned so that its head is `distances[i1]`, and
`prev` is the last value appended to the new row. -/
def levRowAux (c2 : Char) : List Char → List Nat → Nat → List Nat
  | [], _, _ => []
  | c1 :: s1, dists, prev =>
      match dists with
      | [] => []
      | d0 :: rest =>
          let d1 := match rest with | [] => 0 | x :: _ => x
          let v := if c1 = c2 then d0 else 1 + min d0 (min d1 prev)
          v :: levRowAux c2 s1 rest v

def levRow (c2 : Char) (i2 : Nat) (s1 : List Char) (dists : List Nat) :
    List Nat :=
  (i2 + 1) :: levRowAux c2 s1 dists (i2 + 1)

def levLoop (s1 : List Char) : List Char → Nat → List Nat → List Nat
  | [], _, dists => dists
  | c2 :: s2, i2, dists => levLoop s1 s2 (i2 + 1) (levRow c2 i2 s1 dists)

/-- Embedding of `levenshtein_distance` (sync/diff.py). -/
def levenshtein_distance (a b : String) : Nat :=
  let l1 := a.toList
  let l2 := b.toList
  let p := if l1.length > l2.length then (l2, l1) else (l1, l2)
  ((levLoop p.1 p.2 0 (List.range (p.1.length + 1))).getLast?).getD 0

def isAddedDiff : DiffType → Bool
  | DiffType.Added _ => true
  | _ => false

def isRemovedDiff : DiffType → Bool
  | DiffType.Removed _ => true
  | _ => false

/-- `added_filename` / `removed_filename` scoring: Levenshtein distance
between the filename components. -/
def score (added_diff removed_diff : DiffType) : Except String Nat := do
  let ap ← path_split added_diff.path
  let rp ← path_split removed_diff.path
  Except.ok (levenshtein_distance ap.2 rp.2)

/-- Python `min(l, key=...)`: evaluates the key of every element in
order and keeps the first element whose key is strictly smaller than
the best so far. -/
def pyMinBy (key : DiffType → Except String Nat) (l : List DiffType) :
    Except String DiffType :=
  match l with
  | [] => Except.error "min() arg is an empty sequence"
  | x :: xs => do
      let kx ← key x
      let best ← xs.foldlM
        (fun acc y => do
          let ky ← key y
          if ky < acc.2 then Except.ok (y, ky) else Except.ok acc)
        (x, kx)
      Except.ok best.1

/-- Specification-side description of Python `min(l, key=...)` on a
nonempty list with total key `K`: the fold keeps the first element
whose key is strictly below the best so far. -/
def pyMinByPure (K : DiffType → Nat) (x : DiffType) (xs : List DiffType) :
    DiffType :=
  xs.foldl (fun best y => if K y < K best then y else best) x

/-- Python `list.remove`: drop the first occurrence.  In the move
detector the removed element is always a member (it came from
`min(added_diffs, ...)`), and elements are pairwise distinct because
their paths are distinct dictionary keys. -/
def listRemoveFirst : List DiffType → DiffType → List DiffType
  | [], _ => []
  | x :: xs, v => if x = v then xs else x :: listRemoveFirst xs v

/-- Python-dict update: replacing the value of an existing key keeps
its position, a fresh key is appended. -/
def pyDictSet (d : List (String × DiffType)) (k : String) (v : DiffType) :
    List (String × DiffType) :=
  if d.any (fun kv => kv.1 == k) then
    d.map (fun kv => if kv.1 == k then (kv.1, v) else kv)
  else d ++ [(k, v)]

/-- Python `del d[k]` (the key is always present at the call sites in
the move detector). -/
def pyDictDel (d : List (String × DiffType)) (k : String) :
    List (String × DiffType) :=
  d.filter (fun kv => kv.1 != k)

/-- First pass of `StorageStateDiff.compute`: `Added` for paths only
in `current`, `Changed` for differing `content_hash`, then `Removed`
for paths only in `baseline` (dictionary insertion order). -/
def computeRaw (current baseline : StorageState) :
    List (String × DiffType) :=
  (current.files.filterMap (fun kv =>
      match baseline.files.lookup kv.1 with
      | none => some (kv.1, DiffType.Added kv.1)
      | some bst =>
          if kv.2.content_hash ≠ bst.content_hash then
            some (kv.1, DiffType.Changed kv.1)
          else none))
    ++ (baseline.files.filterMap (fun kv =>
      match current.files.lookup kv.1 with
      | none => some (kv.1, DiffType.Removed kv.1)
      | some _ => none))

/-- `collections.defaultdict(list)` append. -/
def bucketAdd (b : List (String × List DiffType)) (k : String)
    (v : DiffType) : List (String × List DiffType) :=
  if b.any (fun kv => kv.1 == k) then
    b.map (fun kv => if kv.1 == k then (kv.1, kv.2 ++ [v]) else kv)
  else b ++ [(k, [v])]

/-- Bucket the `Added` and `Removed` diffs by content hash (`Added`
hashes from `current`, `Removed` hashes from `baseline`); a missing
path would be a Python `KeyError`. -/
def added_removed_by_hash (current baseline : StorageState)
    (changes : List (String × DiffType)) :
    Except String (List (String × List DiffType)) :=
  changes.foldlM
    (fun b kv =>
      match kv.2 with
      | DiffType.Added _ =>
          (match current.files.lookup kv.2.path with
           | some st => Except.ok (bucketAdd b st.content_hash kv.2)
           | none => Except.error "KeyError")
      | DiffType.Removed _ =>
          (match baseline.files.lookup kv.2.path with
           | some st => Except.ok (bucketAdd b st.content_hash kv.2)
           | none => Except.error "KeyError")
      | _ => Except.ok b)
    []

/-- Movement detection for one hash bucket: when the bucket holds as
many `Added` as `Removed` entries, each `Removed` entry (in bucket
order) is paired with the remaining `Added` entry minimizing the
filename score; the `Added` key is deleted from the changes, and the
`Removed` key is overwritten in place with `Moved(old, new)`. -/
def processBucket (changes : List (String × DiffType))
    (diffs : List DiffType) : Except String (List (String × DiffType)) :=
  let added_diffs := diffs.filter isAddedDiff
  let removed_diffs := diffs.filter isRemovedDiff
  if added_diffs.length = removed_diffs.length then do
    let res ← removed_diffs.foldlM
      (fun acc removed_diff => do
        let best ← pyMinBy (fun added_diff => score added_diff removed_diff)
          acc.1
        let added2 := listRemoveFirst acc.1 best
        let chs := pyDictDel acc.2 (DiffType.path best)
        let chs := pyDictSet chs (DiffType.path removed_diff)
          (DiffType.Moved (DiffType.path removed_diff) (DiffType.path best))
        Except.ok (added2, chs))
      (added_diffs, changes)
    Except.ok res.2
  else Except.ok changes

/-- Embedding of `StorageStateDiff.compute`: raw changes followed by
the move-detection pass over the hash buckets. -/
def StorageStateDiff.compute (current baseline : StorageState) :
    Except String (List (String × DiffType)) := do
  let changes := computeRaw current baseline
  let buckets ← added_removed_by_hash current baseline changes
  buckets.foldlM (fun chs bucket => processBucket chs bucket.2) changes

/-! ## Theorems: filter semantics (C7) -/

/-- Declarative description of the scanning loop: the verdict is true
iff no negative atom matches and either the initial verdict was true
or some positive atom matches. -/
theorem scanMatchers_spec (path : String) :
    ∀ (ms : List (String × Bool)) (res : Bool),
      scanMatchers path ms res = true ↔
        ((∀ pm ∈ ms, pm.2 = true → match_single pm.1 path = false) ∧
          (res = true ∨ ∃ pm ∈ ms, pm.2 = false ∧ match_single pm.1 path = true)) := by
  intro ms
  induction ms with
  | nil => intro res; simp [scanMatchers]
  | cons pm rest ih =>
      intro res
      simp only [scanMatchers, List.mem_cons]
      by_cases hm : match_single pm.1 path = true
      · by_cases hneg : pm.2 = false
        · rw [if_pos hm, if_pos hneg, ih true]
          constructor
          · rintro ⟨h1, -⟩
            refine ⟨?_, Or.inr ⟨pm, Or.inl rfl, hneg, hm⟩⟩
            intro q hq hq2
            rcases hq with hq | hq
            · subst hq; simp [hneg] at hq2
            · exact h1 q hq hq2
          · rintro ⟨h1, -⟩
            exact ⟨fun q hq hq2 => h1 q (Or.inr hq) hq2, Or.inl rfl⟩
        · have hpm : pm.2 = true := by
            revert hneg; cases pm.2 <;> simp
          rw [if_pos hm, if_neg hneg]
          constructor
          · intro h; simp at h
          · rintro ⟨h1, -⟩
            exact absurd hm (by simp [h1 pm (Or.inl rfl) hpm])
      · have hm' : match_single pm.1 path = false := by
          revert hm; cases match_single pm.1 path <;> simp
        rw [if_neg hm, ih res]
        constructor
        · rintro ⟨h1, h2⟩
          refine ⟨fun q hq hq2 => ?_, ?_⟩
          · rcases hq with hq | hq
            · subst hq; exact hm'
            · exact h1 q hq hq2
          · rcases h2 with h2 | ⟨q, hq, hq2⟩
            · exact Or.inl h2
            · exact Or.inr ⟨q, Or.inr hq, hq2⟩
        · rintro ⟨h1, h2⟩
          refine ⟨fun q hq hq2 => h1 q (Or.inr hq) hq2, ?_⟩
          rcases h2 with h2 | ⟨q, hq, hq2⟩
          · exact Or.inl h2
          · rcases hq with hq | hq
            · subst hq; rw [hq2.2] at hm'; simp at hm'
            · exact Or.inr ⟨q, hq, hq2⟩

/-- C7: a compiled filter includes a path iff no negative atom matches
it and either some positive atom matches it or the first atom is
negative (the default verdict); atom matching is insensitive to the
case of the path, and is anchored at the start of the path: a pattern
starting with an ordinary character cannot match a path whose first
character differs. -/
theorem C7_filter_semantics :
    (∀ (filter_expr path : String) (f : String → Bool),
      make_filter filter_expr = some f →
      ∃ ms, parse_filter filter_expr = some ms ∧
        (f path = true ↔
          ((∀ pm ∈ ms, pm.2 = true → match_single pm.1 path = false) ∧
            ((∃ pm ∈ ms, pm.2 = false ∧ match_single pm.1 path = true) ∨
              ms.head?.map Prod.snd = some true)))) ∧
    (∀ (pattern p q : String), lowerStr p = lowerStr q →
      match_single pattern p = match_single pattern q) ∧
    (∀ (c : Char) (ps : List Char) (d : Char) (ds : List Char),
      c.toLower ≠ '*' → c.toLower ≠ '?' → c.toLower ≠ '[' →
      c.toLower ≠ d.toLower →
      match_single (String.mk (c :: ps)) (String.mk (d :: ds)) = false) := by
  refine ⟨?_, ?_, ?_⟩
  · intro filter_expr path f hf
    simp only [make_filter, Option.map_eq_some'] at hf
    obtain ⟨ms, hms, hfdef⟩ := hf
    refine ⟨ms, hms, ?_⟩
    rw [← hfdef]
    cases ms with
    | nil => simp [result_matcher, scanMatchers]
    | cons m rest =>
        simp only [result_matcher]
        rw [scanMatchers_spec]
        simp only [List.head?_cons, Option.map_some']
        constructor
        · rintro ⟨h1, h2⟩
          refine ⟨h1, ?_⟩
          rcases h2 with h2 | h2
          · exact Or.inr (by rw [h2])
          · exact Or.inl h2
        · rintro ⟨h1, h2⟩
          refine ⟨h1, ?_⟩
          rcases h2 with h2 | h2
          · exact Or.inr h2
          · exact Or.inl (by injection h2)
  · intro pattern p q h
    simp only [match_single]
    rw [h]
  · intro c ps d ds h1 h2 h3 h4
    show globMatchToks
      (parseGlob (Char.toLower c :: List.map Char.toLower ps))
      (Char.toLower d :: List.map Char.toLower ds) = false
    rw [parseGlob]
    rw [if_neg h1, if_neg h2, if_neg h3]
    simp only [globMatchToks, Bool.and_eq_false_iff]
    left
    exact beq_eq_false_iff_ne.mpr h4

/-- C7 witness: the three components applied at concrete inputs. -/
theorem C7_filter_semantics_witness :
    (∃ ms, parse_filter "a" = some ms ∧
      ((fun path => result_matcher [(("a" : String), false)] path) "b" = true ↔
        ((∀ pm ∈ ms, pm.2 = true → match_single pm.1 "b" = false) ∧
          ((∃ pm ∈ ms, pm.2 = false ∧ match_single pm.1 "b" = true) ∨
            ms.head?.map Prod.snd = some true)))) ∧
    (match_single "a" "x" = match_single "a" "x") ∧
    (match_single (String.mk ['a']) (String.mk ['b']) = false) :=
  ⟨C7_filter_semantics.1 "a" "b" (fun path => result_matcher [("a", false)] path) rfl,
   C7_filter_semantics.2.1 "a" "x" "x" rfl,
   C7_filter_semantics.2.2 'a' [] 'b' []
     (by decide) (by decide) (by decide) (by decide)⟩

/-! ## Theorems: FileState equality (C5) -/

theorem HashType.beq_iff (a b : HashType) : (a == b) = true ↔ a = b := by
  cases a <;> cases b <;> simp_all <;> rfl

/-- C5 (corrected): `FileState.__eq__` compares `path` in addition to
`content_hash`, `hash_type` and `revision`: two file states are equal
iff all four components match. -/
theorem C5_filestate_equality (a b : FileState) :
    FileState.eqPy a b = true ↔
      (a.path = b.path ∧ a.content_hash = b.content_hash ∧
        a.hash_type = b.hash_type ∧ a.revision = b.revision) := by
  simp [FileState.eqPy, HashType.beq_iff, and_assoc]

/-- C5 counterexample: two file states agreeing on `content_hash`,
`hash_type` and `revision` but differing in `path` are not equal under
`FileState.__eq__`, refuting the claim that only those three
components influence equality. -/
theorem C5_counterexample :
    ¬ ((FileState.eqPy
          (FileState.mk "a" "h" HashType.SHA256 none)
          (FileState.mk "b" "h" HashType.SHA256 none) = true) ↔
        (("h" : String) = "h" ∧ HashType.SHA256 = HashType.SHA256 ∧
          (none : Option String) = none)) := by
  decide

/-! ## Theorems: SyncAction equality (C6) -/

/-- The equality the code actually implements, written declaratively:
move actions require the same kind plus equal `path` and `new_path`;
every other action on the left compares only `path`. -/
def actionEqSpec (a b : SyncAction) : Prop :=
  match a with
  | .MoveOnSource p np => b = SyncAction.MoveOnSource p np
  | .MoveOnDestination p np => b = SyncAction.MoveOnDestination p np
  | .Download p => p = SyncAction.path b
  | .Upload p => p = SyncAction.path b
  | .RemoveOnSource p => p = SyncAction.path b
  | .RemoveOnDestination p => p = SyncAction.path b
  | .ResolveConflict p => p = SyncAction.path b
  | .Noop p => p = SyncAction.path b
  | .RaiseError p _ => p = SyncAction.path b

/-- C6 (corrected): Python equality on sync actions matches the
declarative description: the two move action classes compare class,
`path` and `new_path`; all remaining actions compare `path` only, so
two non-move actions of different kinds with the same path compare
equal. -/
theorem C6_action_equality (a b : SyncAction) :
    syncActionEqPy a b = true ↔ actionEqSpec a b := by
  cases a <;> cases b <;>
    (simp [syncActionEqPy, actionEqSpec, SyncAction.path]) <;>
    exact ⟨fun h => ⟨h.1.symm, h.2.symm⟩, fun h => ⟨h.1.symm, h.2.symm⟩⟩

/-- C6 counterexample: an `Upload` and a `Download` for the same path
are distinct actions of different kinds, yet Python `==` (which for
non-move actions only compares `path`) deems them equal, refuting the
claim that actions of different kinds are never equal. -/
theorem C6_counterexample :
    syncActionEqPy (SyncAction.Upload "a") (SyncAction.Download "a") = true ∧
      SyncAction.Upload "a" ≠ SyncAction.Download "a" := by
  decide

/-! ## Theorems: move action constructor validation (C10) -/

/-- C10: constructing `MoveOnSourceSyncAction` or
`MoveOnDestinationSyncAction` with `path = new_path` raises
`ValueError`, and every successfully constructed move action carries
two distinct paths. -/
theorem C10_move_ctor_validation (p np : String) (a : SyncAction) :
    (mkMoveOnSource p p = Except.error "old and new paths must be different") ∧
    (mkMoveOnDestination p p = Except.error "old and new paths must be different") ∧
    (mkMoveOnSource p np = Except.ok a →
      a = SyncAction.MoveOnSource p np ∧ p ≠ np) ∧
    (mkMoveOnDestination p np = Except.ok a →
      a = SyncAction.MoveOnDestination p np ∧ p ≠ np) := by
  refine ⟨by simp [mkMoveOnSource], by simp [mkMoveOnDestination], ?_, ?_⟩
  · intro h
    by_cases hc : p = np
    · simp [mkMoveOnSource, hc] at h
    · simp [mkMoveOnSource, hc] at h
      exact ⟨h.symm, hc⟩
  · intro h
    by_cases hc : p = np
    · simp [mkMoveOnDestination, hc] at h
    · simp [mkMoveOnDestination, hc] at h
      exact ⟨h.symm, hc⟩

/-- C10 witness at a concrete input. -/
theorem C10_move_ctor_validation_witness :
    (SyncAction.MoveOnSource "a" "b" = SyncAction.MoveOnSource "a" "b" ∧
      ("a" : String) ≠ "b") ∧
    (SyncAction.MoveOnDestination "a" "b" = SyncAction.MoveOnDestination "a" "b" ∧
      ("a" : String) ≠ "b") :=
  ⟨(C10_move_ctor_validation "a" "b" (SyncAction.MoveOnSource "a" "b")).2.2.1 rfl,
   (C10_move_ctor_validation "a" "b" (SyncAction.MoveOnDestination "a" "b")).2.2.2 rfl⟩

/-! ## Theorems: the action matrix (C1) -/

/-- C1: the action matrix maps every `(src_diff_kind, dst_diff_kind)`
pair exactly as the specification matrix prescribes; the mutual-move
cell yields `Noop` on equal targets and `RaiseError` otherwise; every
pair marked impossible is absent from the mapping (`none`), and the
planning loop collects such a path as an error path instead of
resolving it to an action. -/
theorem C1_action_matrix_spec :
    (∀ p, action_matrix none (some (DiffType.Added p)) =
      some (Except.ok (SyncAction.Download p))) ∧
    (∀ p, action_matrix none (some (DiffType.Removed p)) =
      some (Except.ok (SyncAction.RemoveOnSource p))) ∧
    (∀ p, action_matrix none (some (DiffType.Changed p)) =
      some (Except.ok (SyncAction.Download p))) ∧
    (∀ p np, p ≠ np → action_matrix none (some (DiffType.Moved p np)) =
      some (Except.ok (SyncAction.MoveOnSource p np))) ∧
    (∀ p, action_matrix (some (DiffType.Added p)) none =
      some (Except.ok (SyncAction.Upload p))) ∧
    (∀ p, action_matrix (some (DiffType.Removed p)) none =
      some (Except.ok (SyncAction.RemoveOnDestination p))) ∧
    (∀ p, action_matrix (some (DiffType.Changed p)) none =
      some (Except.ok (SyncAction.Upload p))) ∧
    (∀ p np, p ≠ np → action_matrix (some (DiffType.Moved p np)) none =
      some (Except.ok (SyncAction.MoveOnDestination p np))) ∧
    (∀ p q, action_matrix (some (DiffType.Added p)) (some (DiffType.Added q)) =
      some (Except.ok (SyncAction.ResolveConflict p))) ∧
    (∀ p q, action_matrix (some (DiffType.Changed p)) (some (DiffType.Changed q)) =
      some (Except.ok (SyncAction.ResolveConflict p))) ∧
    (∀ p q, action_matrix (some (DiffType.Removed p)) (some (DiffType.Removed q)) =
      some (Except.ok (SyncAction.Noop p))) ∧
    (∀ p q, action_matrix (some (DiffType.Changed p)) (some (DiffType.Removed q)) =
      some (Except.ok (SyncAction.RaiseError p
        "File changed on source, but removed on destination"))) ∧
    (∀ p q, action_matrix (some (DiffType.Removed p)) (some (DiffType.Changed q)) =
      some (Except.ok (SyncAction.RaiseError p
        "File removed on source, but changed on destination"))) ∧
    (∀ p np, action_matrix (some (DiffType.Moved p np)) (some (DiffType.Moved p np)) =
      some (Except.ok (SyncAction.Noop p))) ∧
    (∀ p n1 n2, n1 ≠ n2 →
      action_matrix (some (DiffType.Moved p n1)) (some (DiffType.Moved p n2)) =
        some (Except.ok (SyncAction.RaiseError p
          ("File moved on both source and destination in different locations; new location on source: "
            ++ n1 ++ ", on destination: " ++ n2 ++ ";")))) ∧
    (action_matrix none none = none) ∧
    (∀ p q, action_matrix (some (DiffType.Added p)) (some (DiffType.Removed q)) = none) ∧
    (∀ p q, action_matrix (some (DiffType.Added p)) (some (DiffType.Changed q)) = none) ∧
    (∀ p q nq, action_matrix (some (DiffType.Added p)) (some (DiffType.Moved q nq)) = none) ∧
    (∀ p q, action_matrix (some (DiffType.Removed p)) (some (DiffType.Added q)) = none) ∧
    (∀ p q nq, action_matrix (some (DiffType.Removed p)) (some (DiffType.Moved q nq)) = none) ∧
    (∀ p q, action_matrix (some (DiffType.Changed p)) (some (DiffType.Added q)) = none) ∧
    (∀ p q nq, action_matrix (some (DiffType.Changed p)) (some (DiffType.Moved q nq)) = none) ∧
    (∀ p np q, action_matrix (some (DiffType.Moved p np)) (some (DiffType.Added q)) = none) ∧
    (∀ p np q, action_matrix (some (DiffType.Moved p np)) (some (DiffType.Removed q)) = none) ∧
    (∀ p np q, action_matrix (some (DiffType.Moved p np)) (some (DiffType.Changed q)) = none) ∧
    (∀ path sd dd, action_matrix sd dd = none →
      planPaths [path]
        (match sd with | none => [] | some d => [(path, d)])
        (match dd with | none => [] | some d => [(path, d)]) = ([], [path])) := by
  refine ⟨fun p => rfl, fun p => rfl, fun p => rfl, ?_,
    fun p => rfl, fun p => rfl, fun p => rfl, ?_,
    fun p q => rfl, fun p q => rfl, fun p q => rfl, fun p q => rfl, fun p q => rfl,
    ?_, ?_, rfl,
    fun p q => rfl, fun p q => rfl, fun p q nq => rfl,
    fun p q => rfl, fun p q nq => rfl,
    fun p q => rfl, fun p q nq => rfl,
    fun p np q => rfl, fun p np q => rfl, fun p np q => rfl, ?_⟩
  · intro p np h
    simp [action_matrix, mkMoveOnSource, h]
  · intro p np h
    simp [action_matrix, mkMoveOnDestination, h]
  · intro p np
    simp [action_matrix, resolveMutualMovement]
  · intro p n1 n2 h
    simp [action_matrix, resolveMutualMovement, h]
  · intro path sd dd h
    cases sd <;> cases dd <;>
      simp_all [planPaths, List.lookup, List.foldl]

/-- C1 witness: the hypothesis-bearing cells of the matrix applied at
concrete inputs. -/
theorem C1_action_matrix_spec_witness :
    (action_matrix none (some (DiffType.Moved "a" "b")) =
      some (Except.ok (SyncAction.MoveOnSource "a" "b"))) ∧
    (action_matrix (some (DiffType.Moved "a" "b")) none =
      some (Except.ok (SyncAction.MoveOnDestination "a" "b"))) ∧
    (action_matrix (some (DiffType.Moved "a" "b")) (some (DiffType.Moved "a" "c")) =
      some (Except.ok (SyncAction.RaiseError "a"
        ("File moved on both source and destination in different locations; new location on source: "
          ++ "b" ++ ", on destination: " ++ "c" ++ ";")))) ∧
    (planPaths ["a"] [(("a" : String), DiffType.Added "a")]
        [(("a" : String), DiffType.Removed "a")] = ([], ["a"])) :=
  ⟨C1_action_matrix_spec.2.2.2.1 "a" "b" (by decide),
   C1_action_matrix_spec.2.2.2.2.2.2.2.1 "a" "b" (by decide),
   (C1_action_matrix_spec.2.2.2.2.2.2.2.2.2.2.2.2.2.2.1) "a" "b" "c" (by decide),
   (C1_action_matrix_spec.2.2.2.2.2.2.2.2.2.2.2.2.2.2.2.2.2.2.2.2.2.2.2.2.2.2)
     "a" (some (DiffType.Added "a")) (some (DiffType.Removed "a")) rfl⟩

/-! ## Theorems: state persistence round-trip (C8) -/

theorem decodeEntry_encodeEntry (kv : String × FileState) :
    decodeEntry (encodeEntry kv) = Except.ok kv := by
  obtain ⟨k, p, ch, ht, rev⟩ := kv
  cases ht <;> cases rev <;> rfl

theorem mapM_decodeEntry (l : List (String × FileState)) :
    (l.map encodeEntry).mapM decodeEntry = Except.ok l := by
  induction l with
  | nil => rfl
  | cons kv t ih =>
      simp only [List.map_cons, List.mapM_cons, decodeEntry_encodeEntry kv, ih]
      rfl

theorem decode_encode_storage (s : StorageState) :
    decodeStorageState (encodeStorageState s) = Except.ok s := by
  obtain ⟨l⟩ := s
  simp only [encodeStorageState, decodeStorageState, mapM_decodeEntry]
  rfl

/-- C8: loading the serialized bytes of a pair state yields the same
pair state: `load (save s) = s` for every `SyncPairState`. -/
theorem C8_state_roundtrip (s : SyncPairState) :
    SyncPairState.load (SyncPairState.save s) = Except.ok s := by
  obtain ⟨s1, s2⟩ := s
  simp only [SyncPairState.save, SyncPairState.load, decode_encode_storage]
  rfl

/-! ## Theorems: missing / corrupt state handling (C9) -/

/-- C9 (corrected): a missing state file yields an empty baseline
(`SyncPairState` with two empty `StorageState`s), but a corrupt state
file does not: the load error propagates out of `load_state`. -/
theorem C9_load_state (v : PickleValue) (e : String) :
    (load_state false v =
      Except.ok (SyncPairState.mk (StorageState.mk []) (StorageState.mk []))) ∧
    (SyncPairState.load v = Except.error e →
      load_state true v = Except.error e) := by
  constructor
  · rfl
  · intro h
    simpa [load_state] using h

/-- C9 witness: a concrete corrupt input propagates its error. -/
theorem C9_load_state_witness :
    load_state true (PickleValue.pstr "corrupt") =
      Except.error "pickle.UnpicklingError" :=
  (C9_load_state (PickleValue.pstr "corrupt") "pickle.UnpicklingError").2 rfl

/-- C9 counterexample: a corrupt (malformed) state file makes
`load_state` return an error, not the empty baseline the claim
prescribes. -/
theorem C9_counterexample :
    load_state true (PickleValue.pstr "garbage") =
      Except.error "pickle.UnpicklingError" ∧
    load_state true (PickleValue.pstr "garbage") ≠
      Except.ok (SyncPairState.mk (StorageState.mk []) (StorageState.mk [])) := by
  constructor
  · rfl
  · intro h
    simp [load_state, SyncPairState.load] at h

/-! ## Theorems: snapshot persistence conditions (C3) -/

/-- C3: the snapshot is persisted exactly when the run is not a dry
run, no per-action errors accumulated, and the correctness check
passes; a non-empty error list aborts with `SyncError` before
persisting, a key-set mismatch aborts with `SyncError` before
persisting, a dry run returns the planned actions with no check and no
save, and the correctness check passes exactly when the two states
have the same key sets. -/
theorem C3_snapshot_persistence (dry_run : Bool) (actions : List SyncAction)
    (exec_errors : List String) (src dst : StorageState) :
    ((∃ out, syncFinalize dry_run actions exec_errors src dst = Except.ok out ∧
        out.saved ≠ none) ↔
      (dry_run = false ∧ exec_errors = [] ∧
        correctness_check src dst = Except.ok ())) ∧
    (dry_run = true →
      syncFinalize dry_run actions exec_errors src dst =
        Except.ok (SyncOutcome.mk actions none)) ∧
    (dry_run = false → exec_errors ≠ [] →
      syncFinalize dry_run actions exec_errors src dst =
        Except.error "sync errors occurred (see logs)") ∧
    (dry_run = false → exec_errors = [] →
      correctness_check src dst =
        Except.error "Unknown correctness error detected!" →
      syncFinalize dry_run actions exec_errors src dst =
        Except.error "Unknown correctness error detected!") ∧
    (dry_run = false → exec_errors = [] →
      correctness_check src dst = Except.ok () →
      syncFinalize dry_run actions exec_errors src dst =
        Except.ok (SyncOutcome.mk actions
          (some (SyncPairState.mk src dst)))) ∧
    (correctness_check src dst = Except.ok () ↔
      (∀ p, p ∈ src.files.map Prod.fst ↔ p ∈ dst.files.map Prod.fst)) := by
  have hcc : correctness_check src dst = Except.ok () ↔
      (∀ p, p ∈ src.files.map Prod.fst ↔ p ∈ dst.files.map Prod.fst) := by
    simp only [correctness_check]
    constructor
    · intro h
      split at h
      · cases h
      · next hcond =>
          rw [not_or] at hcond
          obtain ⟨hms, hmd⟩ := hcond
          rw [not_ne_iff] at hms hmd
          rw [List.filter_eq_nil_iff] at hms hmd
          intro p
          constructor
          · intro hp
            have := hms p hp
            simpa [List.elem_iff] using this
          · intro hp
            have := hmd p hp
            simpa [List.elem_iff] using this
    · intro h
      rw [if_neg]
      rw [not_or, not_ne_iff, not_ne_iff]
      constructor
      · rw [List.filter_eq_nil_iff]
        intro p hp
        simp [List.elem_iff, (h p).mp hp]
      · rw [List.filter_eq_nil_iff]
        intro p hp
        simp [List.elem_iff, (h p).mpr hp]
  refine ⟨?_, ?_, ?_, ?_, ?_, hcc⟩
  · constructor
    · rintro ⟨out, hout, hsaved⟩
      cases dry_run with
      | true =>
          simp [syncFinalize] at hout
          rw [← hout] at hsaved
          simp at hsaved
      | false =>
          simp only [syncFinalize] at hout
          by_cases he : exec_errors = []
          · rw [if_neg (by simp [he])] at hout
            rw [if_pos trivial] at hout
            refine ⟨rfl, he, ?_⟩
            cases hc : correctness_check src dst with
            | error e => rw [hc] at hout; cases hout
            | ok u => cases u; rfl
          · rw [if_pos (by simpa using he)] at hout
            cases hout
    · rintro ⟨hd, he, hc⟩
      subst hd; subst he
      refine ⟨SyncOutcome.mk actions (some (SyncPairState.mk src dst)), ?_, by intro h; cases h⟩
      simp only [syncFinalize]
      rw [if_neg (by simp)]
      rw [if_pos trivial]
      rw [hc]
      rfl
  · intro hd
    subst hd
    simp only [syncFinalize]
    rw [if_neg (by simp)]
    rw [if_neg (by simp)]
  · intro hd he
    subst hd
    simp only [syncFinalize]
    rw [if_pos (by simpa using he)]
  · intro hd he hc
    subst hd; subst he
    simp only [syncFinalize]
    rw [if_neg (by simp)]
    rw [if_pos trivial]
    rw [hc]
    rfl
  · intro hd he hc
    subst hd; subst he
    simp only [syncFinalize]
    rw [if_neg (by simp)]
    rw [if_pos trivial]
    rw [hc]
    rfl

/-- C3 witness: the persistence conditions applied at concrete
inputs. -/
theorem C3_snapshot_persistence_witness :
    (syncFinalize true [] ["boom"] (StorageState.mk []) (StorageState.mk []) =
      Except.ok (SyncOutcome.mk [] none)) ∧
    (syncFinalize false [] ["boom"] (StorageState.mk []) (StorageState.mk []) =
      Except.error "sync errors occurred (see logs)") ∧
    (syncFinalize false [] [] (StorageState.mk []) (StorageState.mk []) =
      Except.ok (SyncOutcome.mk []
        (some (SyncPairState.mk (StorageState.mk []) (StorageState.mk []))))) :=
  ⟨(C3_snapshot_persistence true [] ["boom"] (StorageState.mk [])
      (StorageState.mk [])).2.1 rfl,
   (C3_snapshot_persistence false [] ["boom"] (StorageState.mk [])
      (StorageState.mk [])).2.2.1 rfl (by simp),
   (C3_snapshot_persistence false [] [] (StorageState.mk [])
      (StorageState.mk [])).2.2.2.2.1 rfl rfl rfl⟩

/-! ## Theorems: move detection soundness (C2) -/

theorem except_bind_ok {e a b : Type} (x : a) (k : a → Except e b) :
    (Except.ok x >>= k) = k x := rfl

theorem list_lookup_eq_none {α : Type} (k : String) (s : List (String × α))
    (h : k ∉ s.map Prod.fst) : s.lookup k = none := by
  induction s with
  | nil => rfl
  | cons kv t ih =>
      simp only [List.map_cons, List.mem_cons] at h
      push_neg at h
      obtain ⟨hk, ht⟩ := h
      obtain ⟨k1, v1⟩ := kv
      simp only [List.lookup]
      rw [beq_eq_false_iff_ne.mpr (by simpa using hk)]
      exact ih ht

theorem list_lookup_append_right {α : Type} (k : String)
    (s t : List (String × α)) (h : k ∉ s.map Prod.fst) :
    (s ++ t).lookup k = t.lookup k := by
  induction s with
  | nil => rfl
  | cons kv r ih =>
      simp only [List.map_cons, List.mem_cons] at h
      push_neg at h
      obtain ⟨hk, hr⟩ := h
      obtain ⟨k1, v1⟩ := kv
      simp only [List.cons_append, List.lookup]
      rw [beq_eq_false_iff_ne.mpr (by simpa using hk)]
      exact ih hr

theorem list_lookup_append_left {α : Type} (k : String)
    (s t : List (String × α)) (v : α) (h : s.lookup k = some v) :
    (s ++ t).lookup k = some v := by
  induction s with
  | nil => cases h
  | cons kv r ih =>
      obtain ⟨k1, v1⟩ := kv
      simp only [List.lookup] at h
      simp only [List.cons_append, List.lookup]
      by_cases hk : (k == k1) = true
      · rw [hk] at h
        rw [hk]
        exact h
      · have hkf : (k == k1) = false := by
          revert hk
          cases k == k1 <;> simp
        rw [hkf] at h
        rw [hkf]
        exact ih h

theorem list_lookup_self {α : Type} (s : List (String × α))
    (hnd : (s.map Prod.fst).Nodup) (kv : String × α) (hm : kv ∈ s) :
    s.lookup kv.1 = some kv.2 := by
  induction s with
  | nil => cases hm
  | cons hd t ih =>
      obtain ⟨k1, v1⟩ := hd
      simp only [List.map_cons, List.nodup_cons] at hnd
      obtain ⟨hk1, hnd'⟩ := hnd
      rcases List.mem_cons.mp hm with hh | hh
      · subst hh
        simp [List.lookup]
      · have hne : kv.1 ≠ k1 := by
          intro hEq
          exact hk1 (hEq ▸ (List.mem_map.mpr ⟨kv, hh, rfl⟩))
        simp only [List.lookup]
        rw [beq_eq_false_iff_ne.mpr (by simpa using hne)]
        exact ih hnd' hh

theorem computeRaw_move (s : List (String × FileState)) (f : FileState)
    (p1 p2 : String) (hnd : (s.map Prod.fst).Nodup)
    (h1 : p1 ∉ s.map Prod.fst) (h2 : p2 ∉ s.map Prod.fst) (hne : p1 ≠ p2) :
    computeRaw (StorageState.mk (s ++ [(p2, f)]))
        (StorageState.mk (s ++ [(p1, f)])) =
      [(p2, DiffType.Added p2), (p1, DiffType.Removed p1)] := by
  simp only [computeRaw]
  rw [List.filterMap_append, List.filterMap_append]
  have hcur2 : (s ++ [(p2, f)]).lookup p2 = some f := by
    rw [list_lookup_append_right p2 s _ h2]
    simp [List.lookup]
  have hbase1 : (s ++ [(p1, f)]).lookup p1 = some f := by
    rw [list_lookup_append_right p1 s _ h1]
    simp [List.lookup]
  have hcur1 : (s ++ [(p2, f)]).lookup p1 = none := by
    rw [list_lookup_append_right p1 s _ h1]
    simp only [List.lookup]
    rw [beq_eq_false_iff_ne.mpr hne]
  have hbase2 : (s ++ [(p1, f)]).lookup p2 = none := by
    rw [list_lookup_append_right p2 s _ h2]
    simp only [List.lookup]
    rw [beq_eq_false_iff_ne.mpr (Ne.symm hne)]
  have hfm1 : s.filterMap (fun kv =>
      match (StorageState.mk (s ++ [(p1, f)])).files.lookup kv.1 with
      | none => some (kv.1, DiffType.Added kv.1)
      | some bst =>
          if kv.2.content_hash ≠ bst.content_hash then
            some (kv.1, DiffType.Changed kv.1)
          else none) = [] := by
    rw [List.filterMap_eq_nil_iff]
    intro kv hkv
    have hl : (s ++ [(p1, f)]).lookup kv.1 = some kv.2 :=
      list_lookup_append_left kv.1 s _ kv.2 (list_lookup_self s hnd kv hkv)
    simp only [hl]
    simp
  have hfm2 : s.filterMap (fun kv =>
      match (StorageState.mk (s ++ [(p2, f)])).files.lookup kv.1 with
      | none => some (kv.1, DiffType.Removed kv.1)
      | some _ => none) = [] := by
    rw [List.filterMap_eq_nil_iff]
    intro kv hkv
    have hl : (s ++ [(p2, f)]).lookup kv.1 = some kv.2 :=
      list_lookup_append_left kv.1 s _ kv.2 (list_lookup_self s hnd kv hkv)
    simp only [hl]
  rw [hfm1, hfm2]
  simp only [List.filterMap_cons, List.filterMap_nil]
  simp only [hbase2, hcur1]
  rfl

/-- C2 (corrected): moving a single file—`baseline = s + (p1, f)`,
`current = s + (p2, f)` with `p1`, `p2` fresh and distinct and `s`
unchanged—diffs to exactly one entry: `Moved(p1, p2)` stored under
`p1`, with no `Added`, `Removed` or `Changed` entries, provided the
filename-component extraction (`path_split`) succeeds on `p1` and
`p2`; otherwise the scoring inside move detection raises. -/
theorem C2_move_detection_soundness (s : List (String × FileState))
    (f : FileState) (p1 p2 : String)
    (hnd : (s.map Prod.fst).Nodup)
    (h1 : p1 ∉ s.map Prod.fst) (h2 : p2 ∉ s.map Prod.fst) (hne : p1 ≠ p2)
    (hsp1 : ∃ pr, path_split p1 = Except.ok pr)
    (hsp2 : ∃ pr, path_split p2 = Except.ok pr) :
    StorageStateDiff.compute (StorageState.mk (s ++ [(p2, f)]))
        (StorageState.mk (s ++ [(p1, f)])) =
      Except.ok [(p1, DiffType.Moved p1 p2)] := by
  obtain ⟨pr1, hsp1⟩ := hsp1
  obtain ⟨pr2, hsp2⟩ := hsp2
  have hraw := computeRaw_move s f p1 p2 hnd h1 h2 hne
  have hcur2 : (s ++ [(p2, f)]).lookup p2 = some f := by
    rw [list_lookup_append_right p2 s _ h2]
    simp [List.lookup]
  have hbase1 : (s ++ [(p1, f)]).lookup p1 = some f := by
    rw [list_lookup_append_right p1 s _ h1]
    simp [List.lookup]
  have hbuck : added_removed_by_hash (StorageState.mk (s ++ [(p2, f)]))
      (StorageState.mk (s ++ [(p1, f)]))
      [(p2, DiffType.Added p2), (p1, DiffType.Removed p1)] =
      Except.ok [(f.content_hash, [DiffType.Added p2, DiffType.Removed p1])] := by
    simp only [added_removed_by_hash, List.foldlM_cons, List.foldlM_nil,
      DiffType.path, hcur2, hbase1, bucketAdd, except_bind_ok]
    simp
    rfl
  have hscore : score (DiffType.Added p2) (DiffType.Removed p1) =
      Except.ok (levenshtein_distance pr2.2 pr1.2) := by
    simp only [score, DiffType.path, hsp2, hsp1]
    rfl
  have hmin : pyMinBy (fun a => score a (DiffType.Removed p1))
      [DiffType.Added p2] = Except.ok (DiffType.Added p2) := by
    simp only [pyMinBy, List.foldlM_nil, hscore]
    rfl
  have hdel : pyDictDel [(p2, DiffType.Added p2), (p1, DiffType.Removed p1)]
      p2 = [(p1, DiffType.Removed p1)] := by
    simp only [pyDictDel, List.filter]
    rw [show (p1 != p2) = true from bne_iff_ne.mpr hne]
    simp
  have hset : pyDictSet [(p1, DiffType.Removed p1)] p1
      (DiffType.Moved p1 p2) = [(p1, DiffType.Moved p1 p2)] := by
    simp [pyDictSet]
  have hrem : listRemoveFirst [DiffType.Added p2] (DiffType.Added p2) = [] := by
    simp [listRemoveFirst]
  have hfa : List.filter isAddedDiff
      [DiffType.Added p2, DiffType.Removed p1] = [DiffType.Added p2] := rfl
  have hfr : List.filter isRemovedDiff
      [DiffType.Added p2, DiffType.Removed p1] = [DiffType.Removed p1] := rfl
  have hproc : processBucket
      [(p2, DiffType.Added p2), (p1, DiffType.Removed p1)]
      [DiffType.Added p2, DiffType.Removed p1] =
      Except.ok [(p1, DiffType.Moved p1 p2)] := by
    simp only [processBucket, hfa, hfr, List.foldlM_cons, List.foldlM_nil,
      except_bind_ok, hmin, hrem, DiffType.path, hdel, hset]
    simp
  simp only [StorageStateDiff.compute]
  rw [hraw, hbuck]
  simp only [except_bind_ok, List.foldlM_cons, List.foldlM_nil, hproc]
  rfl

/-- C2 witness: a concrete one-file move is detected. -/
theorem C2_move_detection_soundness_witness :
    StorageStateDiff.compute
      (StorageState.mk [("d/b", FileState.mk "x" "h" HashType.SHA256 none)])
      (StorageState.mk [("d/a", FileState.mk "x" "h" HashType.SHA256 none)]) =
      Except.ok [("d/a", DiffType.Moved "d/a" "d/b")] :=
  C2_move_detection_soundness [] (FileState.mk "x" "h" HashType.SHA256 none)
    "d/a" "d/b" (by simp) (by simp) (by simp) (by decide)
    ⟨("d", "a"), rfl⟩ ⟨("d", "b"), rfl⟩

/-- C2 counterexample: for the single-character fresh paths `a` and
`b` (`path_split` raises `ValueError` on them), the diff computation
raises instead of producing the `Moved(a, b)` entry the claim
promises for every pair of distinct fresh paths. -/
theorem C2_counterexample :
    StorageStateDiff.compute
      (StorageState.mk [("b", FileState.mk "x" "h" HashType.SHA256 none)])
      (StorageState.mk [("a", FileState.mk "x" "h" HashType.SHA256 none)]) =
      Except.error "Invalid path to split!" ∧
    StorageStateDiff.compute
      (StorageState.mk [("b", FileState.mk "x" "h" HashType.SHA256 none)])
      (StorageState.mk [("a", FileState.mk "x" "h" HashType.SHA256 none)]) ≠
      Except.ok [("a", DiffType.Moved "a" "b")] := by
  constructor
  · rfl
  · intro h
    have he : StorageStateDiff.compute
        (StorageState.mk [("b", FileState.mk "x" "h" HashType.SHA256 none)])
        (StorageState.mk [("a", FileState.mk "x" "h" HashType.SHA256 none)]) =
        Except.error "Invalid path to split!" := rfl
    rw [he] at h
    exact Except.noConfusion h

/-! ## Theorems: greedy pairing in move detection (C4) -/

theorem pyMinByPure_cons (K : DiffType → Nat) (x y : DiffType)
    (ys : List DiffType) :
    pyMinByPure K x (y :: ys) =
      pyMinByPure K (if K y < K x then y else x) ys := rfl

theorem pyMinByPure_mem (K : DiffType → Nat) :
    ∀ (xs : List DiffType) (x : DiffType), pyMinByPure K x xs ∈ x :: xs := by
  intro xs
  induction xs with
  | nil => intro x; simp [pyMinByPure]
  | cons y ys ih =>
      intro x
      rw [pyMinByPure_cons]
      have h := ih (if K y < K x then y else x)
      rcases List.mem_cons.mp h with h | h
      · rw [h]
        by_cases hc : K y < K x
        · rw [if_pos hc]
          exact List.mem_cons.mpr (Or.inr (List.mem_cons_self _ _))
        · rw [if_neg hc]
          exact List.mem_cons_self _ _
      · exact List.mem_cons.mpr (Or.inr (List.mem_cons.mpr (Or.inr h)))

theorem pyMinByPure_le (K : DiffType → Nat) :
    ∀ (xs : List DiffType) (x a : DiffType), a ∈ x :: xs →
      K (pyMinByPure K x xs) ≤ K a := by
  intro xs
  induction xs with
  | nil =>
      intro x a ha
      rcases List.mem_cons.mp ha with h | h
      · rw [h]; simp [pyMinByPure]
      · cases h
  | cons y ys ih =>
      intro x a ha
      rw [pyMinByPure_cons]
      by_cases hc : K y < K x
      · rw [if_pos hc]
        have hx' : K (pyMinByPure K y ys) ≤ K y :=
          ih _ _ (List.mem_cons_self _ _)
        rcases List.mem_cons.mp ha with h | h
        · rw [h]
          exact le_of_lt (lt_of_le_of_lt hx' hc)
        · rcases List.mem_cons.mp h with h2 | h2
          · rw [h2]
            exact hx'
          · exact ih y a (List.mem_cons.mpr (Or.inr h2))
      · rw [if_neg hc]
        have hx' : K (pyMinByPure K x ys) ≤ K x :=
          ih _ _ (List.mem_cons_self _ _)
        rcases List.mem_cons.mp ha with h | h
        · rw [h]
          exact hx'
        · rcases List.mem_cons.mp h with h2 | h2
          · rw [h2]
            exact le_trans hx' (le_of_not_lt hc)
          · exact ih x a (List.mem_cons.mpr (Or.inr h2))

theorem pyMinByPure_first (K : DiffType → Nat) :
    ∀ (xs : List DiffType) (x : DiffType),
      ∃ pre post, x :: xs = pre ++ pyMinByPure K x xs :: post ∧
        ∀ a ∈ pre, K (pyMinByPure K x xs) < K a := by
  intro xs
  induction xs with
  | nil =>
      intro x
      exact ⟨[], [], by simp [pyMinByPure], by simp⟩
  | cons y ys ih =>
      intro x
      rw [pyMinByPure_cons]
      by_cases hc : K y < K x
      · rw [if_pos hc]
        obtain ⟨pre, post, heq, hlt⟩ := ih y
        refine ⟨x :: pre, post, ?_, ?_⟩
        · rw [List.cons_append, ← heq]
        · intro a ha
          rcases List.mem_cons.mp ha with h | h
          · rw [h]
            have h1 : K (pyMinByPure K y ys) ≤ K y :=
              pyMinByPure_le K ys y y (List.mem_cons_self _ _)
            exact lt_of_le_of_lt h1 hc
          · exact hlt a h
      · rw [if_neg hc]
        obtain ⟨pre, post, heq, hlt⟩ := ih x
        cases pre with
        | nil =>
            simp only [List.nil_append] at heq
            refine ⟨[], y :: ys, ?_, by simp⟩
            have h1 : x = pyMinByPure K x ys := by
              have h := congrArg List.head? heq
              simpa using h
            rw [List.nil_append, ← h1]
        | cons p0 pre' =>
            rw [List.cons_append] at heq
            injection heq with hx hys
            refine ⟨x :: y :: pre', post, ?_, ?_⟩
            · rw [List.cons_append, List.cons_append, ← hys]
            · intro a ha
              have hresx : K (pyMinByPure K x ys) < K x := by
                have := hlt p0 (List.mem_cons_self _ _)
                rw [← hx] at this
                exact this
              rcases List.mem_cons.mp ha with h | h
              · rw [h]; exact hresx
              · rcases List.mem_cons.mp h with h2 | h2
                · rw [h2]
                  exact lt_of_lt_of_le hresx (le_of_not_lt hc)
                · exact hlt a (List.mem_cons.mpr (Or.inr h2))

theorem pyMinBy_foldlM (key : DiffType → Except String Nat)
    (K : DiffType → Nat) :
    ∀ (xs : List DiffType) (x : DiffType),
      (∀ y ∈ xs, key y = Except.ok (K y)) →
      List.foldlM
        (fun acc y => do
          let ky ← key y
          if ky < acc.2 then Except.ok (y, ky) else Except.ok acc)
        (x, K x) xs =
        Except.ok (pyMinByPure K x xs, K (pyMinByPure K x xs)) := by
  intro xs
  induction xs with
  | nil => intro x h; rfl
  | cons y ys ih =>
      intro x h
      rw [List.foldlM_cons]
      rw [h y (List.mem_cons_self _ _)]
      rw [except_bind_ok]
      by_cases hc : K y < K x
      · rw [if_pos hc, except_bind_ok, pyMinByPure_cons, if_pos hc]
        exact ih y (fun z hz => h z (List.mem_cons.mpr (Or.inr hz)))
      · rw [if_neg hc, except_bind_ok, pyMinByPure_cons, if_neg hc]
        exact ih x (fun z hz => h z (List.mem_cons.mpr (Or.inr hz)))

theorem pyMinBy_eq_pure (key : DiffType → Except String Nat)
    (K : DiffType → Nat) (x : DiffType) (xs : List DiffType)
    (hx : key x = Except.ok (K x))
    (hxs : ∀ y ∈ xs, key y = Except.ok (K y)) :
    pyMinBy key (x :: xs) = Except.ok (pyMinByPure K x xs) := by
  simp only [pyMinBy, hx, except_bind_ok, pyMinBy_foldlM key K xs x hxs]

/-- C4 (corrected): the pairing step of the move detector picks, for
a removed entry, an added entry whose filename score (Levenshtein
distance computed by `score`) is minimal; among equal scores it picks
the entry that occurs earliest in the added list (its position in the
changes mapping, i.e. current-state insertion order), which need not
be the lexicographically smallest path. -/
theorem C4_greedy_pairing (removed : DiffType) (added : List DiffType)
    (K : DiffType → Nat)
    (hK : ∀ a ∈ added, score a removed = Except.ok (K a))
    (hne : added ≠ []) :
    ∃ best pre post,
      pyMinBy (fun a => score a removed) added = Except.ok best ∧
      added = pre ++ best :: post ∧
      (∀ a ∈ added, K best ≤ K a) ∧
      (∀ a ∈ pre, K best < K a) := by
  cases added with
  | nil => exact absurd rfl hne
  | cons x xs =>
      have hx : score x removed = Except.ok (K x) :=
        hK x (List.mem_cons_self _ _)
      have hxs : ∀ y ∈ xs, score y removed = Except.ok (K y) :=
        fun y hy => hK y (List.mem_cons.mpr (Or.inr hy))
      obtain ⟨pre, post, heq, hlt⟩ := pyMinByPure_first K xs x
      exact ⟨pyMinByPure K x xs, pre, post,
        pyMinBy_eq_pure _ K x xs hx hxs, heq,
        fun a ha => pyMinByPure_le K xs x a ha, hlt⟩

/-- C4 witness: the selection applied to a concrete bucket. -/
theorem C4_greedy_pairing_witness :
    ∃ best pre post,
      pyMinBy (fun a => score a (DiffType.Removed "d/x"))
        [DiffType.Added "d/b", DiffType.Added "d/a"] = Except.ok best ∧
      [DiffType.Added "d/b", DiffType.Added "d/a"] = pre ++ best :: post ∧
      (∀ a ∈ [DiffType.Added "d/b", DiffType.Added "d/a"], (1 : Nat) ≤ 1) ∧
      (∀ a ∈ pre, (1 : Nat) < 1) :=
  C4_greedy_pairing (DiffType.Removed "d/x")
    [DiffType.Added "d/b", DiffType.Added "d/a"] (fun _ => 1)
    (by
      intro a ha
      rcases List.mem_cons.mp ha with h | h
      · rw [h]; rfl
      · rcases List.mem_cons.mp h with h2 | h2
        · rw [h2]; rfl
        · cases h2)
    (by simp)

/-- C4 counterexample: two added files `d/b`, `d/a` (in that insertion
order) and two removed files `d/x`, `d/y` share one content hash; the
filename scores of `d/b` and `d/a` against `d/x` tie, `d/a` is
lexicographically smaller than `d/b`, yet the code pairs `d/x` with
`d/b` — the first added entry in list order — refuting the claimed
lexicographic tie-break (which would produce `Moved(d/x, d/a)`). -/
theorem C4_counterexample :
    StorageStateDiff.compute
      (StorageState.mk
        [("d/b", FileState.mk "d/b" "h" HashType.SHA256 none),
         ("d/a", FileState.mk "d/a" "h" HashType.SHA256 none)])
      (StorageState.mk
        [("d/x", FileState.mk "d/x" "h" HashType.SHA256 none),
         ("d/y", FileState.mk "d/y" "h" HashType.SHA256 none)]) =
      Except.ok [("d/x", DiffType.Moved "d/x" "d/b"),
                 ("d/y", DiffType.Moved "d/y" "d/a")] ∧
    score (DiffType.Added "d/b") (DiffType.Removed "d/x") =
      score (DiffType.Added "d/a") (DiffType.Removed "d/x") ∧
    ("d/a").toList = ['d', '/', 'a'] ∧
    ("d/b").toList = ['d', '/', 'b'] ∧
    ('a' : Char) < 'b' ∧
    [("d/x", DiffType.Moved "d/x" "d/b"), ("d/y", DiffType.Moved "d/y" "d/a")] ≠
      [("d/x", DiffType.Moved "d/x" "d/a"), ("d/y", DiffType.Moved "d/y" "d/b")] := by
  refine ⟨rfl, rfl, rfl, rfl, by decide, by decide⟩

end Sync
